import Mathlib

/-!
# CPFS quick format: embedding of `cpfs-format.cpp`

A shallow embedding of the formatting routine `quick_format_cpfs` and of the
on-disk structures it serialises.

Conventions of the embedding.

* A byte is a `Nat` below 256; a region of memory is a `List Nat` of bytes.
* `unsigned int` is 4 bytes, stored least significant byte first (the program
  targets Windows, `<windows.h>`), and structure members are laid out in
  declaration order at their natural alignment.
* The device is a function from absolute byte offset to byte.  The platform
  calls `CreateFileA`, `SetFilePointerEx`, `WriteFile` may fail; what they
  answer is given by an `Env`: whether the open succeeds and, for the `k`-th
  invocation of `write_to_disk` (counted from 0), what the seek and the write
  report.
* The text printed on `std::cout` / `std::cerr` is not modelled.
-/

namespace CPFS

/-! ## Constants (`#define`s) -/

def BLOCK_SIZE : Nat := 4096
def JOURNAL_SIZE : Nat := 64
def CPFS_MAGIC : Nat := 0x53465043
def SECTOR_SIZE : Nat := 512

/-- Size in bytes of `unsigned int`. -/
def sizeof_uint : Nat := 4

/-! ## Byte images of the structures -/

/-- The 4 bytes of an `unsigned int`, least significant first. -/
def u32le (x : Nat) : List Nat :=
  [x % 256, x / 256 % 256, x / 65536 % 256, x / 16777216 % 256]

/-- Read a little-endian `unsigned int` at offset `off` of a byte region. -/
def readU32 (mem : List Nat) (off : Nat) : Nat :=
  mem.getD off 0 + 256 * mem.getD (off + 1) 0 + 65536 * mem.getD (off + 2) 0
    + 16777216 * mem.getD (off + 3) 0

/-- Journal entry structure: `sequence_num`, `block_num`, and
`data[BLOCK_SIZE / 4]` (a list of `BLOCK_SIZE / 4` words). -/
structure JournalEntry where
  sequence_num : Nat
  block_num : Nat
  data : List Nat
deriving DecidableEq, Repr

/-- The value-initialised entry `JournalEntry{}`: every member zero. -/
def JournalEntry.zero : JournalEntry :=
  { sequence_num := 0, block_num := 0, data := List.replicate (BLOCK_SIZE / 4) 0 }

/-- Object representation of a `JournalEntry`: the two header words followed
by the payload words. -/
def JournalEntry.bytes (e : JournalEntry) : List Nat :=
  u32le e.sequence_num ++ u32le e.block_num ++ e.data.flatMap u32le

/-- Superblock structure. -/
structure Superblock where
  cpfs_magic : Nat
  block_count : Nat
  journal_start : Nat
  journal_length : Nat
deriving DecidableEq, Repr

/-- Object representation of a `Superblock`: four consecutive words. -/
def Superblock.bytes (s : Superblock) : List Nat :=
  u32le s.cpfs_magic ++ u32le s.block_count ++ u32le s.journal_start ++ u32le s.journal_length

/-- The value of `sizeof(Superblock)`. -/
def sizeof_Superblock : Nat := 4 * sizeof_uint

/-- Directory entry structure; `name` is the content of `char name[128]`. -/
structure DirectoryEntry where
  name : List Nat
  block_num : Nat
  size : Nat
  isDirectory : Bool
deriving DecidableEq, Repr

/-- The value-initialised entry `DirectoryEntry{}`: the whole object zero. -/
def DirectoryEntry.zero : DirectoryEntry :=
  { name := List.replicate 128 0, block_num := 0, size := 0, isDirectory := false }

/-- Object representation of a `DirectoryEntry`: `name` at offset 0,
`block_num` at 128, `size` at 132, `isDirectory` at 136, and three bytes of
tail padding up to the alignment of `unsigned int`.  The only object ever
serialised is built from `DirectoryEntry root_dir{}`, which zero-fills the
object, so the padding bytes are zero. -/
def DirectoryEntry.bytes (d : DirectoryEntry) : List Nat :=
  d.name ++ u32le d.block_num ++ u32le d.size ++ [if d.isDirectory then 1 else 0] ++ [0, 0, 0]

/-- The value of `sizeof(DirectoryEntry)`. -/
def sizeof_DirectoryEntry : Nat := 128 + sizeof_uint + sizeof_uint + 1 + 3

/-- Contiguous storage of a `std::vector<JournalEntry>`, as seen from
`data()`. -/
def vectorBytes (v : List JournalEntry) : List Nat :=
  v.flatMap JournalEntry.bytes

/-! ## C library helpers -/

/-- The call `memcpy(dest, src, n)`: the first `n` bytes of `dest` are
replaced by the first `n` bytes of `src`. -/
def memcpy (dest src : List Nat) (n : Nat) : List Nat :=
  src.take n ++ dest.drop n

/-- The call `strncpy(dest, src, n)` where `src` lists the characters of the
source string before its terminating NUL: at most `n` characters are copied
and the rest of the first `n` bytes of `dest` is filled with NUL. -/
def strncpy (dest src : List Nat) (n : Nat) : List Nat :=
  let copied := (src.takeWhile (fun c => c != 0)).take n
  copied ++ List.replicate (n - copied.length) 0 ++ dest.drop n

/-! ## The device -/

/-- What the platform answers to one invocation of `write_to_disk`:
the result of `SetFilePointerEx`, the result of `WriteFile`, and the number
of bytes `WriteFile` transferred (`written`). -/
structure WriteOutcome where
  seekOk : Bool
  writeOk : Bool
  written : Nat
deriving DecidableEq, Repr

/-- Behaviour of the platform during one run. -/
structure Env where
  /-- Whether `CreateFileA` returns a valid handle. -/
  openOk : Bool
  /-- Answer to the `k`-th invocation of `write_to_disk`. -/
  outcome : Nat → WriteOutcome

/-- Platform calls, in the order issued. -/
inductive DiskOp where
  | CreateFileA
  | SetFilePointerEx (offset : Nat)
  | WriteFile (nNumberOfBytesToWrite : Nat)
  | CloseHandle
deriving DecidableEq, Repr

/-- State of the device and of the bookkeeping around it. -/
structure Disk where
  /-- Byte stored at each absolute offset. -/
  data : Nat → Nat
  /-- Number of invocations of `write_to_disk` so far. -/
  calls : Nat
  /-- Platform calls issued so far. -/
  log : List DiskOp

/-- Device content after `bytes` are stored at offset `off`. -/
def store (data : Nat → Nat) (off : Nat) (bytes : List Nat) : Nat → Nat :=
  fun a => if off ≤ a ∧ a < off + bytes.length then bytes.getD (a - off) 0 else data a

/-- Content of block `i` of the device, as a list of `BLOCK_SIZE` bytes. -/
def readBlock (data : Nat → Nat) (i : Nat) : List Nat :=
  (List.range BLOCK_SIZE).map (fun j => data (i * BLOCK_SIZE + j))

/-- The call `write_to_disk(disk, block_num, buffer, buffer_size)`.  `buffer` is the
memory found at the pointer passed.  The offset is computed in 64 bits from
the 32-bit `block_num`.  A failed seek returns `false` without calling
`WriteFile`; otherwise `WriteFile` transfers `written` bytes (never more than
requested) and the call succeeds only if it reports success and
`written = buffer_size`. -/
def write_to_disk (env : Env) (s : Disk) (block_num : Nat) (buffer : List Nat)
    (buffer_size : Nat) : Bool × Disk :=
  let offset := (block_num % 2 ^ 32) * BLOCK_SIZE % 2 ^ 64
  let r := env.outcome s.calls
  let s1 : Disk :=
    { s with calls := s.calls + 1, log := s.log ++ [DiskOp.SetFilePointerEx offset] }
  if !r.seekOk then (false, s1)
  else
    let s2 : Disk :=
      { s1 with
        data := store s1.data offset (buffer.take (min r.written buffer_size))
        log := s1.log ++ [DiskOp.WriteFile buffer_size] }
    if !r.writeOk || r.written != buffer_size then (false, s2) else (true, s2)

/-- The journal loop `for (i = 0; i < JOURNAL_SIZE; ++i)` with `remaining`
iterations left, that is at `i = JOURNAL_SIZE - remaining`.  Returns `false`
as soon as a write fails (the caller then closes the handle and returns). -/
def journalLoop (env : Env) (journal_start : Nat) (journal_buffer : List JournalEntry) :
    (remaining : Nat) → Disk → Bool × Disk
  | 0, s => (true, s)
  | r + 1, s =>
    let i := JOURNAL_SIZE - (r + 1)
    match write_to_disk env s ((journal_start + i) % 2 ^ 32) (vectorBytes journal_buffer)
        BLOCK_SIZE with
    | (false, s1) => (false, s1)
    | (true, s1) => journalLoop env journal_start journal_buffer r s1

/-- The call `open_disk(disk_path)` on a device holding `data0`: `CreateFileA`
is called once; the first component tells whether the handle returned is
valid (not `INVALID_HANDLE_VALUE`). -/
def open_disk (env : Env) (data0 : Nat → Nat) : Bool × Disk :=
  (env.openOk, { data := data0, calls := 0, log := [DiskOp.CreateFileA] })

/-- The call `CloseHandle(disk)`. -/
def CloseHandle (s : Disk) : Disk :=
  { s with log := s.log ++ [DiskOp.CloseHandle] }

/-- Outcome of one run of `quick_format_cpfs`. -/
structure Result where
  /-- The value returned. -/
  ret : Int
  /-- The device and the call record after the run. -/
  disk : Disk
  /-- The global `journal_buffer` after the run. -/
  journal_buffer : List JournalEntry

/-- The call `quick_format_cpfs(disk_path, total_blocks)`, run on a device holding
`data0` with the global `journal_buffer` holding `jb0`. -/
def quick_format_cpfs (env : Env) (data0 : Nat → Nat) (jb0 : List JournalEntry)
    (total_blocks : Nat) : Result :=
  match open_disk env data0 with
  | (false, s0) => { ret := -1, disk := s0, journal_buffer := jb0 }
  | (true, s0) =>
    -- Initialize superblock
    let superblock : Superblock :=
      { cpfs_magic := CPFS_MAGIC
        block_count := total_blocks
        journal_start := 1
        journal_length := JOURNAL_SIZE }
    -- Zero buffer
    let buffer := List.replicate (BLOCK_SIZE / sizeof_uint * sizeof_uint) 0
    let buffer := memcpy buffer superblock.bytes sizeof_Superblock
    -- Write superblock to disk
    match write_to_disk env s0 0 buffer BLOCK_SIZE with
    | (false, s1) => { ret := -1, disk := CloseHandle s1, journal_buffer := jb0 }
    | (true, s1) =>
      -- Initialize journal entries
      let jb := List.replicate JOURNAL_SIZE JournalEntry.zero
      match journalLoop env superblock.journal_start jb JOURNAL_SIZE s1 with
      | (false, s2) => { ret := -1, disk := CloseHandle s2, journal_buffer := jb }
      | (true, s2) =>
        -- Initialize root directory entry
        let root_dir := DirectoryEntry.zero
        let root_dir :=
          { root_dir with name := strncpy root_dir.name [47] (128 - 1) }
        let root_dir :=
          { root_dir with
            block_num := (superblock.journal_start + superblock.journal_length) % 2 ^ 32 }
        let root_dir := { root_dir with isDirectory := true }
        let buffer := List.replicate (BLOCK_SIZE / sizeof_uint * sizeof_uint) 0
        let buffer := memcpy buffer root_dir.bytes sizeof_DirectoryEntry
        match write_to_disk env s2 root_dir.block_num buffer BLOCK_SIZE with
        | (false, s3) => { ret := -1, disk := CloseHandle s3, journal_buffer := jb }
        | (true, s3) => { ret := 0, disk := CloseHandle s3, journal_buffer := jb }

/-! ## Vocabulary of the properties -/

/-- A write of `size` bytes succeeds: no seek failure, no write failure and
no short write. -/
def WriteOutcome.succeeds (r : WriteOutcome) (size : Nat) : Bool :=
  r.seekOk && r.writeOk && r.written == size

/-- Byte offset that `write_to_disk` seeks to for `block_num`. -/
def blockOffset (block_num : Nat) : Nat :=
  (block_num % 2 ^ 32) * BLOCK_SIZE % 2 ^ 64

/-- A sequence of block writes `(block_num, buffer)` of `BLOCK_SIZE` bytes
each, issued in order and abandoned at the first failure. -/
def runWrites (env : Env) : List (Nat × List Nat) → Disk → Bool × Disk
  | [], s => (true, s)
  | w :: ws, s =>
    match write_to_disk env s w.1 w.2 BLOCK_SIZE with
    | (false, s1) => (false, s1)
    | (true, s1) => runWrites env ws s1

/-- Device content after the writes `ws` have all been carried out. -/
def applyWrites (ws : List (Nat × List Nat)) (data : Nat → Nat) : Nat → Nat :=
  ws.foldl (fun d w => store d (blockOffset w.1) (w.2.take BLOCK_SIZE)) data

/-- Platform calls of a successful run of the writes `ws`. -/
def writeOps (ws : List (Nat × List Nat)) : List DiskOp :=
  ws.flatMap (fun w => [DiskOp.SetFilePointerEx (blockOffset w.1), DiskOp.WriteFile BLOCK_SIZE])

/-- The block buffer holding the superblock for `total_blocks`, as built by
`quick_format_cpfs`. -/
def superblockBuffer (total_blocks : Nat) : List Nat :=
  memcpy (List.replicate (BLOCK_SIZE / sizeof_uint * sizeof_uint) 0)
    (Superblock.bytes
      { cpfs_magic := CPFS_MAGIC
        block_count := total_blocks
        journal_start := 1
        journal_length := JOURNAL_SIZE })
    sizeof_Superblock

/-- The root directory entry, as built by `quick_format_cpfs`. -/
def rootEntry : DirectoryEntry :=
  { name := strncpy DirectoryEntry.zero.name [47] (128 - 1)
    block_num := (1 + JOURNAL_SIZE) % 2 ^ 32
    size := 0
    isDirectory := true }

/-- The block buffer holding the root directory entry, as built by
`quick_format_cpfs`. -/
def rootBuffer : List Nat :=
  memcpy (List.replicate (BLOCK_SIZE / sizeof_uint * sizeof_uint) 0)
    rootEntry.bytes sizeof_DirectoryEntry

/-- The memory handed to each journal write: the storage of the freshly
assigned `journal_buffer`. -/
def journalMemory : List Nat :=
  vectorBytes (List.replicate JOURNAL_SIZE JournalEntry.zero)

/-- The writes of a format of `total_blocks`, in program order. -/
def formatWrites (total_blocks : Nat) : List (Nat × List Nat) :=
  (0, superblockBuffer total_blocks) ::
    ((List.range' 0 JOURNAL_SIZE).map (fun i => ((1 + i) % 2 ^ 32, journalMemory))
      ++ [((1 + JOURNAL_SIZE) % 2 ^ 32, rootBuffer)])

/-- The state in which the first write is issued: the device just opened. -/
def opened (data0 : Nat → Nat) : Disk :=
  { data := data0, calls := 0, log := [DiskOp.CreateFileA] }

/-- The bytes that the `k`-th write of a format of `total_blocks` puts on the
device. -/
def formatImage (total_blocks k : Nat) : List Nat :=
  ((formatWrites total_blocks).getD k (0, [])).2.take BLOCK_SIZE

/-- An environment in which everything succeeds. -/
def goodEnv : Env :=
  { openOk := true, outcome := fun _ => { seekOk := true, writeOk := true, written := 4096 } }

/-- An environment in which the third write (block 2) reports a short write
of 100 bytes and everything else succeeds. -/
def shortThirdEnv : Env :=
  { openOk := true
    outcome := fun k =>
      if k = 2 then { seekOk := true, writeOk := true, written := 100 }
      else { seekOk := true, writeOk := true, written := 4096 } }

/-- An environment in which the device cannot be opened. -/
def noOpenEnv : Env :=
  { openOk := false
    outcome := fun _ => { seekOk := true, writeOk := true, written := 4096 } }

/-! ## Facts about a single block write -/

theorem write_to_disk_ok (env : Env) (s : Disk) (b : Nat) (buf : List Nat)
    (h : (env.outcome s.calls).succeeds BLOCK_SIZE = true) :
    write_to_disk env s b buf BLOCK_SIZE =
      (true, { data := store s.data (blockOffset b) (buf.take BLOCK_SIZE)
               calls := s.calls + 1
               log := s.log ++ [DiskOp.SetFilePointerEx (blockOffset b),
                                DiskOp.WriteFile BLOCK_SIZE] }) := by
  simp only [WriteOutcome.succeeds, Bool.and_eq_true, beq_iff_eq] at h
  obtain ⟨⟨h1, h2⟩, h3⟩ := h
  simp [write_to_disk, h1, h2, h3, blockOffset]

theorem write_to_disk_fail (env : Env) (s : Disk) (b : Nat) (buf : List Nat)
    (h : (env.outcome s.calls).succeeds BLOCK_SIZE = false) :
    (write_to_disk env s b buf BLOCK_SIZE).1 = false := by
  unfold write_to_disk
  simp only [WriteOutcome.succeeds] at h
  cases h1 : (env.outcome s.calls).seekOk <;> cases h2 : (env.outcome s.calls).writeOk <;>
    simp_all

theorem write_to_disk_calls (env : Env) (s : Disk) (b : Nat) (buf : List Nat) :
    (write_to_disk env s b buf BLOCK_SIZE).2.calls = s.calls + 1 := by
  unfold write_to_disk
  simp only []
  split
  · rfl
  · split <;> rfl

/-- A block write, failed or not, touches no byte outside its block. -/
theorem write_to_disk_frame (env : Env) (s : Disk) (b : Nat) (buf : List Nat) (a : Nat)
    (h : a < blockOffset b ∨ blockOffset b + BLOCK_SIZE ≤ a) :
    (write_to_disk env s b buf BLOCK_SIZE).2.data a = s.data a := by
  have hlen : (buf.take (min (env.outcome s.calls).written BLOCK_SIZE)).length ≤ BLOCK_SIZE := by
    simp only [List.length_take]; omega
  have key : store s.data (blockOffset b)
      (buf.take (min (env.outcome s.calls).written BLOCK_SIZE)) a = s.data a := by
    unfold store
    rw [if_neg]
    omega
  unfold write_to_disk
  simp only []
  split
  · rfl
  · split <;> exact key

/-- A block write appends only seek and write calls to the record. -/
theorem write_to_disk_log (env : Env) (s : Disk) (b : Nat) (buf : List Nat) :
    ∃ ops, (write_to_disk env s b buf BLOCK_SIZE).2.log = s.log ++ ops ∧
      DiskOp.CloseHandle ∉ ops ∧ DiskOp.CreateFileA ∉ ops := by
  unfold write_to_disk
  simp only []
  split
  · exact ⟨[DiskOp.SetFilePointerEx (blockOffset b)], rfl, by simp, by simp⟩
  · split <;>
      exact ⟨[DiskOp.SetFilePointerEx (blockOffset b), DiskOp.WriteFile BLOCK_SIZE],
        by simp [blockOffset], by simp, by simp⟩

/-- A block write issues a seek and, unless the seek fails, one write. -/
theorem write_to_disk_log_cases (env : Env) (s : Disk) (b : Nat) (buf : List Nat) :
    ∃ last, (last = [] ∨ last = [DiskOp.WriteFile BLOCK_SIZE]) ∧
      (write_to_disk env s b buf BLOCK_SIZE).2.log =
        s.log ++ DiskOp.SetFilePointerEx (blockOffset b) :: last := by
  unfold write_to_disk
  simp only []
  split
  · exact ⟨[], Or.inl rfl, rfl⟩
  · split <;> exact ⟨[DiskOp.WriteFile BLOCK_SIZE], Or.inr rfl, by simp [blockOffset]⟩

/-! ## Facts about a sequence of block writes -/

theorem runWrites_nil (env : Env) (s : Disk) : runWrites env [] s = (true, s) := rfl

theorem runWrites_cons (env : Env) (w : Nat × List Nat) (ws : List (Nat × List Nat))
    (s : Disk) :
    runWrites env (w :: ws) s =
      match write_to_disk env s w.1 w.2 BLOCK_SIZE with
      | (false, s1) => (false, s1)
      | (true, s1) => runWrites env ws s1 := rfl

theorem runWrites_append (env : Env) (ws1 ws2 : List (Nat × List Nat)) (s : Disk) :
    runWrites env (ws1 ++ ws2) s =
      match runWrites env ws1 s with
      | (false, s1) => (false, s1)
      | (true, s1) => runWrites env ws2 s1 := by
  induction ws1 generalizing s with
  | nil => simp [runWrites]
  | cons w ws ih =>
    simp only [List.cons_append, runWrites]
    rcases hw : write_to_disk env s w.1 w.2 BLOCK_SIZE with ⟨ok, s1⟩
    cases ok
    · simp
    · simpa using ih s1

theorem applyWrites_append (ws1 ws2 : List (Nat × List Nat)) (d : Nat → Nat) :
    applyWrites (ws1 ++ ws2) d = applyWrites ws2 (applyWrites ws1 d) := by
  simp [applyWrites, List.foldl_append]

theorem applyWrites_cons (w : Nat × List Nat) (ws : List (Nat × List Nat)) (d : Nat → Nat) :
    applyWrites (w :: ws) d =
      applyWrites ws (store d (blockOffset w.1) (w.2.take BLOCK_SIZE)) := by
  simp [applyWrites]

theorem writeOps_cons (w : Nat × List Nat) (ws : List (Nat × List Nat)) :
    writeOps (w :: ws) =
      DiskOp.SetFilePointerEx (blockOffset w.1) :: DiskOp.WriteFile BLOCK_SIZE :: writeOps ws := by
  simp [writeOps]

/-- When every write succeeds, the run succeeds and carries out all of them. -/
theorem runWrites_ok (env : Env) (ws : List (Nat × List Nat)) (s : Disk)
    (h : ∀ j, j < ws.length → (env.outcome (s.calls + j)).succeeds BLOCK_SIZE = true) :
    runWrites env ws s =
      (true, { data := applyWrites ws s.data
               calls := s.calls + ws.length
               log := s.log ++ writeOps ws }) := by
  induction ws generalizing s with
  | nil => simp [runWrites, applyWrites, writeOps]
  | cons w ws ih =>
    have h0 : (env.outcome s.calls).succeeds BLOCK_SIZE = true := by
      simpa using h 0 (by simp)
    simp only [runWrites, write_to_disk_ok env s w.1 w.2 h0]
    rw [ih]
    · simp [applyWrites_cons, writeOps_cons, Nat.add_assoc, Nat.add_comm 1]
    · intro j hj
      have := h (j + 1) (by simpa using hj)
      simpa [Nat.add_assoc, Nat.add_comm 1] using this

/-- When the write after `pre` is the first to fail, the run stops there. -/
theorem runWrites_fail (env : Env) (pre post : List (Nat × List Nat)) (x : Nat × List Nat)
    (s : Disk)
    (hok : ∀ j, j < pre.length → (env.outcome (s.calls + j)).succeeds BLOCK_SIZE = true)
    (hbad : (env.outcome (s.calls + pre.length)).succeeds BLOCK_SIZE = false) :
    runWrites env (pre ++ x :: post) s =
      (false, (write_to_disk env
        { data := applyWrites pre s.data
          calls := s.calls + pre.length
          log := s.log ++ writeOps pre } x.1 x.2 BLOCK_SIZE).2) := by
  rw [runWrites_append, runWrites_ok env pre s hok]
  simp only [runWrites]
  have hf := write_to_disk_fail env
    { data := applyWrites pre s.data
      calls := s.calls + pre.length
      log := s.log ++ writeOps pre } x.1 x.2 hbad
  rcases hw : write_to_disk env
    { data := applyWrites pre s.data
      calls := s.calls + pre.length
      log := s.log ++ writeOps pre } x.1 x.2 BLOCK_SIZE with ⟨ok, s1⟩
  rw [hw] at hf
  simp only at hf
  subst hf
  rfl

/-- A run that succeeds has seen every one of its writes succeed. -/
theorem runWrites_true (env : Env) (ws : List (Nat × List Nat)) (s : Disk)
    (h : (runWrites env ws s).1 = true) :
    ∀ j, j < ws.length → (env.outcome (s.calls + j)).succeeds BLOCK_SIZE = true := by
  induction ws generalizing s with
  | nil => intro j hj; simp at hj
  | cons w ws ih =>
    cases h0 : (env.outcome s.calls).succeeds BLOCK_SIZE with
    | false =>
      have hf := write_to_disk_fail env s w.1 w.2 h0
      simp only [runWrites] at h
      rcases hw : write_to_disk env s w.1 w.2 BLOCK_SIZE with ⟨ok, s1⟩
      rw [hw] at hf h
      simp only at hf
      subst hf
      simp at h
    | true =>
      simp only [runWrites, write_to_disk_ok env s w.1 w.2 h0] at h
      intro j hj
      cases j with
      | zero => simpa using h0
      | succ j =>
        have := ih _ h j (by simpa using hj)
        simpa [Nat.add_assoc, Nat.add_comm 1] using this

/-- A run of writes only appends seek and write calls to the record. -/
theorem runWrites_log (env : Env) (ws : List (Nat × List Nat)) (s : Disk) :
    ∃ ops, (runWrites env ws s).2.log = s.log ++ ops ∧
      DiskOp.CloseHandle ∉ ops ∧ DiskOp.CreateFileA ∉ ops := by
  induction ws generalizing s with
  | nil => exact ⟨[], by simp [runWrites], by simp, by simp⟩
  | cons w ws ih =>
    obtain ⟨ops1, h1, h2, h3⟩ := write_to_disk_log env s w.1 w.2
    simp only [runWrites]
    rcases hw : write_to_disk env s w.1 w.2 BLOCK_SIZE with ⟨ok, s1⟩
    rw [hw] at h1
    simp only at h1
    cases ok
    · exact ⟨ops1, h1, h2, h3⟩
    · obtain ⟨ops2, k1, k2, k3⟩ := ih s1
      refine ⟨ops1 ++ ops2, ?_, ?_, ?_⟩
      · simp only [k1, h1, List.append_assoc]
      · simp [h2, k2]
      · simp [h3, k3]

/-! ## The program as a sequence of writes -/

theorem journalLoop_eq_runWrites (env : Env) (start : Nat) (jb : List JournalEntry)
    (r : Nat) (hr : r ≤ JOURNAL_SIZE) (s : Disk) :
    journalLoop env start jb r s =
      runWrites env ((List.range' (JOURNAL_SIZE - r) r).map
        (fun i => ((start + i) % 2 ^ 32, vectorBytes jb))) s := by
  induction r generalizing s with
  | zero => simp [journalLoop, runWrites]
  | succ r ih =>
    have e : JOURNAL_SIZE - (r + 1) + 1 = JOURNAL_SIZE - r := by omega
    simp only [journalLoop, List.range'_succ, List.map_cons, runWrites, e]
    rcases hw : write_to_disk env s ((start + (JOURNAL_SIZE - (r + 1))) % 2 ^ 32)
      (vectorBytes jb) BLOCK_SIZE with ⟨ok, s1⟩
    cases ok
    · rfl
    · exact ih (by omega) s1

/-- With the device open, the format is the run of `formatWrites` followed by
`CloseHandle`. -/
theorem quick_format_cpfs_eq (env : Env) (data0 : Nat → Nat) (jb0 : List JournalEntry)
    (N : Nat) (h : env.openOk = true) :
    (quick_format_cpfs env data0 jb0 N).ret =
        (if (runWrites env (formatWrites N) (opened data0)).1 then 0 else -1) ∧
      (quick_format_cpfs env data0 jb0 N).disk =
        CloseHandle (runWrites env (formatWrites N) (opened data0)).2 := by
  rw [formatWrites, runWrites_cons]
  simp only [runWrites_append, runWrites_cons, runWrites_nil]
  unfold superblockBuffer rootBuffer rootEntry journalMemory
  have hz : DirectoryEntry.zero.size = 0 := rfl
  simp only [quick_format_cpfs, open_disk, h, opened, hz]
  obtain ⟨ok1, s1, e1⟩ : ∃ ok s1, write_to_disk env
      { data := data0, calls := 0, log := [DiskOp.CreateFileA] } 0
      (memcpy (List.replicate (BLOCK_SIZE / sizeof_uint * sizeof_uint) 0)
        (Superblock.bytes
          { cpfs_magic := CPFS_MAGIC, block_count := N, journal_start := 1,
            journal_length := JOURNAL_SIZE }) sizeof_Superblock) BLOCK_SIZE = (ok, s1) :=
    ⟨_, _, rfl⟩
  simp only [e1]
  cases ok1
  · simp
  · simp only [journalLoop_eq_runWrites env 1 _ JOURNAL_SIZE (Nat.le_refl _) s1, Nat.sub_self]
    obtain ⟨ok2, s2, e2⟩ : ∃ ok s2, runWrites env
        ((List.range' 0 JOURNAL_SIZE).map (fun i =>
          ((1 + i) % 2 ^ 32, vectorBytes (List.replicate JOURNAL_SIZE JournalEntry.zero))))
        s1 = (ok, s2) := ⟨_, _, rfl⟩
    simp only [e2]
    cases ok2
    · simp
    · obtain ⟨ok3, s3, e3⟩ : ∃ ok s3, write_to_disk env s2 ((1 + JOURNAL_SIZE) % 2 ^ 32)
          (memcpy (List.replicate (BLOCK_SIZE / sizeof_uint * sizeof_uint) 0)
            (DirectoryEntry.bytes
              { name := strncpy DirectoryEntry.zero.name [47] (128 - 1),
                block_num := (1 + JOURNAL_SIZE) % 2 ^ 32,
                size := 0, isDirectory := true })
            sizeof_DirectoryEntry) BLOCK_SIZE = (ok, s3) := ⟨_, _, rfl⟩
      simp only [e3]
      cases ok3 <;> simp
/-! ## The block buffers, explicitly -/

theorem superblock_length_bytes (sb : Superblock) : sb.bytes.length = 16 := by
  simp [Superblock.bytes, u32le]

theorem superblockBuffer_eq (N : Nat) :
    superblockBuffer N =
      Superblock.bytes
        { cpfs_magic := CPFS_MAGIC, block_count := N, journal_start := 1,
          journal_length := JOURNAL_SIZE } ++ List.replicate 4080 0 := by
  unfold superblockBuffer memcpy
  have h16 : sizeof_Superblock = 16 := rfl
  have hn : BLOCK_SIZE / sizeof_uint * sizeof_uint - 16 = 4080 := by decide
  rw [h16, List.take_of_length_le (by rw [superblock_length_bytes]), List.drop_replicate, hn]

set_option maxRecDepth 8000 in
theorem rootEntry_bytes :
    rootEntry.bytes =
      47 :: List.replicate 127 0 ++ [65, 0, 0, 0] ++ [0, 0, 0, 0] ++ [1] ++ [0, 0, 0] := by
  decide

theorem rootEntry_length_bytes : rootEntry.bytes.length = 140 := by
  rw [rootEntry_bytes]
  simp only [List.length_append, List.length_cons, List.length_replicate, List.length_nil]

theorem rootBuffer_eq :
    rootBuffer = rootEntry.bytes ++ List.replicate 3956 0 := by
  unfold rootBuffer memcpy
  have h : sizeof_DirectoryEntry = 140 := rfl
  have hn : BLOCK_SIZE / sizeof_uint * sizeof_uint - 140 = 3956 := by decide
  rw [h, List.take_of_length_le (by rw [rootEntry_length_bytes]), List.drop_replicate, hn]

theorem flatMap_u32le_replicate_zero (n : Nat) :
    (List.replicate n 0).flatMap u32le = List.replicate (4 * n) 0 := by
  induction n with
  | zero => rfl
  | succ n ih =>
    have e : 4 * (n + 1) = 4 * n + 1 + 1 + 1 + 1 := by ring
    rw [List.replicate_succ, List.flatMap_cons, ih, e]
    rfl

theorem journalEntry_bytes_zero : JournalEntry.zero.bytes = List.replicate 4104 0 := by
  unfold JournalEntry.bytes JournalEntry.zero
  rw [flatMap_u32le_replicate_zero]
  have e : 4 * (BLOCK_SIZE / 4) = 4096 := by decide
  rw [e]
  have e2 : (4104 : Nat) = 4096 + 8 := rfl
  rw [e2, List.replicate_add, List.append_assoc]
  have e3 : List.replicate 4096 0 ++ List.replicate 8 0 = List.replicate 8 0 ++ List.replicate 4096 0 := by
    rw [← List.replicate_add, ← List.replicate_add]
  rw [e3]
  rfl

/-- Each journal write carries `BLOCK_SIZE` zero bytes. -/
theorem journalMemory_take : journalMemory.take BLOCK_SIZE = List.replicate 4096 0 := by
  have hj : JOURNAL_SIZE = 63 + 1 := rfl
  unfold journalMemory vectorBytes
  rw [hj, List.replicate_succ, List.flatMap_cons, journalEntry_bytes_zero,
    List.take_append_of_le_length (by rw [List.length_replicate]; decide), List.take_replicate]
  rfl

theorem journalMemory_length : BLOCK_SIZE ≤ journalMemory.length := by
  have hj : JOURNAL_SIZE = 63 + 1 := rfl
  unfold journalMemory vectorBytes
  rw [hj, List.replicate_succ, List.flatMap_cons, journalEntry_bytes_zero, List.length_append,
    List.length_replicate]
  unfold BLOCK_SIZE
  omega

/-! ## Device content after a run of writes -/

theorem blockOffset_eq (k : Nat) (h : k < 2 ^ 32) : blockOffset k = k * BLOCK_SIZE := by
  unfold blockOffset BLOCK_SIZE
  rw [Nat.mod_eq_of_lt h, Nat.mod_eq_of_lt]
  have : (2 : Nat) ^ 32 * 4096 < 2 ^ 64 := by norm_num
  have : k * 4096 < 2 ^ 32 * 4096 := Nat.mul_lt_mul_of_pos_right h (by norm_num)
  omega

/-- When the `k`-th write goes to block `k` and every buffer holds at least a
block, the device after the writes holds the `k`-th buffer in block `k` and is
untouched beyond the last block written. -/
theorem applyWrites_blocks (ws : List (Nat × List Nat)) (d : Nat → Nat)
    (hfst : ws.map Prod.fst = List.range ws.length)
    (hlen : ∀ w ∈ ws, BLOCK_SIZE ≤ w.2.length)
    (hsz : ws.length ≤ 2 ^ 32) (a : Nat) :
    applyWrites ws d a =
      if a < ws.length * BLOCK_SIZE then
        ((ws.getD (a / BLOCK_SIZE) (0, [])).2.take BLOCK_SIZE).getD (a % BLOCK_SIZE) 0
      else d a := by
  induction ws using List.reverseRecOn with
  | nil => simp [applyWrites]
  | append_singleton l x ih =>
    have hl : (l ++ [x]).length = l.length + 1 := by simp
    rw [hl] at hfst hsz ⊢
    rw [List.map_append, List.range_succ] at hfst
    have hinj := List.append_inj hfst (by simp)
    have hx : x.1 = l.length := by simpa using hinj.2
    have ih := ih hinj.1 (fun w hw => hlen w (by simp [hw])) (by omega)
    have hxl : (x.2.take BLOCK_SIZE).length = BLOCK_SIZE := by
      rw [List.length_take]
      have := hlen x (by simp)
      omega
    rw [applyWrites_append, applyWrites_cons]
    simp only [applyWrites, List.foldl_nil]
    change store (applyWrites l d) _ _ a = _
    unfold store
    rw [hx, blockOffset_eq _ (by omega), hxl]
    simp only [BLOCK_SIZE] at ih ⊢
    by_cases h1 : a < l.length * 4096
    · have hq : a / 4096 < l.length := by omega
      rw [if_neg (by omega), ih, if_pos h1, if_pos (by omega), List.getD_append _ _ _ _ hq]
    · by_cases h2 : a < (l.length + 1) * 4096
      · have hq : a / 4096 = l.length := by omega
        have hr : a % 4096 = a - l.length * 4096 := by omega
        rw [if_pos (by omega), if_pos h2, hq, hr,
          List.getD_append_right _ _ _ _ (Nat.le_refl _)]
        simp
      · rw [if_neg (by omega), ih, if_neg h1, if_neg h2]

theorem readBlock_eq (data : Nat → Nat) (k : Nat) (l : List Nat) (hl : l.length = BLOCK_SIZE)
    (h : ∀ j, j < BLOCK_SIZE → data (k * BLOCK_SIZE + j) = l.getD j 0) :
    readBlock data k = l := by
  apply List.ext_getElem
  · simp [readBlock, hl]
  · intro j h1 h2
    have hj : j < BLOCK_SIZE := by simpa [readBlock] using h1
    simp only [readBlock, List.getElem_map, List.getElem_range]
    rw [h j hj, List.getD_eq_getElem _ _ h2]

/-! ## The writes of a format -/

theorem formatWrites_length (N : Nat) : (formatWrites N).length = 66 := by
  simp [formatWrites, JOURNAL_SIZE]

theorem formatWrites_fst (N : Nat) :
    (formatWrites N).map Prod.fst = List.range (formatWrites N).length := by
  rw [formatWrites_length]
  simp only [formatWrites, List.map_cons, List.map_append, List.map_map, List.map_nil]
  decide

theorem superblockBuffer_length (N : Nat) : (superblockBuffer N).length = BLOCK_SIZE := by
  rw [superblockBuffer_eq, List.length_append, List.length_replicate, superblock_length_bytes]
  rfl

theorem rootBuffer_length : rootBuffer.length = BLOCK_SIZE := by
  rw [rootBuffer_eq, List.length_append, List.length_replicate, rootEntry_length_bytes]
  rfl

theorem formatWrites_buffer (N : Nat) :
    ∀ w ∈ formatWrites N, BLOCK_SIZE ≤ w.2.length := by
  intro w hw
  simp only [formatWrites, List.mem_cons, List.mem_append, List.mem_map, List.mem_nil_iff,
    or_false] at hw
  rcases hw with rfl | ⟨i, _, rfl⟩ | rfl
  · exact Nat.le_of_eq (superblockBuffer_length N).symm
  · exact journalMemory_length
  · exact Nat.le_of_eq rootBuffer_length.symm

theorem formatImage_length (N k : Nat) (hk : k < 66) : (formatImage N k).length = BLOCK_SIZE := by
  unfold formatImage
  rw [List.length_take]
  have hk2 : k < (formatWrites N).length := by rw [formatWrites_length]; exact hk
  rw [List.getD_eq_getElem _ _ hk2]
  have := formatWrites_buffer N _ (List.getElem_mem hk2)
  omega

theorem formatImage_zero (N : Nat) :
    formatImage N 0 =
      Superblock.bytes
        { cpfs_magic := CPFS_MAGIC, block_count := N, journal_start := 1,
          journal_length := JOURNAL_SIZE } ++ List.replicate 4080 0 := by
  have : (formatWrites N).getD 0 (0, []) = (0, superblockBuffer N) := rfl
  rw [formatImage, this, ← superblockBuffer_eq]
  exact List.take_of_length_le (Nat.le_of_eq (superblockBuffer_length N))

theorem formatImage_journal (N k : Nat) (h1 : 1 ≤ k) (h2 : k ≤ 64) :
    formatImage N k = List.replicate 4096 0 := by
  obtain ⟨j, rfl⟩ : ∃ j, k = j + 1 := ⟨k - 1, by omega⟩
  have hj : j < ((List.range' 0 JOURNAL_SIZE).map
      (fun i => ((1 + i) % 2 ^ 32, journalMemory))).length := by
    simp [JOURNAL_SIZE]; omega
  have : (formatWrites N).getD (j + 1) (0, []) = ((1 + (0 + j)) % 2 ^ 32, journalMemory) := by
    rw [formatWrites, List.getD_cons_succ, List.getD_append _ _ _ _ hj,
      List.getD_eq_getElem _ _ hj]
    simp
  rw [formatImage, this, journalMemory_take]

theorem formatImage_root (N : Nat) :
    formatImage N 65 = rootEntry.bytes ++ List.replicate 3956 0 := by
  have hl : ((List.range' 0 JOURNAL_SIZE).map
      (fun i => ((1 + i) % 2 ^ 32, journalMemory))).length = 64 := by
    simp [JOURNAL_SIZE]
  have : (formatWrites N).getD 65 (0, []) = ((1 + JOURNAL_SIZE) % 2 ^ 32, rootBuffer) := by
    rw [formatWrites, List.getD_cons_succ, List.getD_append_right _ _ _ _ (by rw [hl]), hl]
    rfl
  rw [formatImage, this, ← rootBuffer_eq]
  exact List.take_of_length_le (Nat.le_of_eq rootBuffer_length)

/-- Device content after the first `f` writes of a format. -/
theorem applyWrites_take_format (N f : Nat) (hf : f ≤ 66) (d : Nat → Nat) (a : Nat) :
    applyWrites ((formatWrites N).take f) d a =
      if a < f * BLOCK_SIZE then (formatImage N (a / BLOCK_SIZE)).getD (a % BLOCK_SIZE) 0
      else d a := by
  have hlen : ((formatWrites N).take f).length = f := by
    rw [List.length_take, formatWrites_length]; omega
  have h := applyWrites_blocks ((formatWrites N).take f) d
    (by rw [hlen, List.map_take, formatWrites_fst, formatWrites_length, List.take_range,
          Nat.min_eq_left hf])
    (fun w hw => formatWrites_buffer N w (List.mem_of_mem_take hw))
    (by rw [hlen]; omega) a
  rw [h, hlen]
  by_cases h1 : a < f * BLOCK_SIZE
  · have hq : a / BLOCK_SIZE < f := by
      simp only [BLOCK_SIZE] at h1 ⊢; omega
    have e : ((formatWrites N).take f).getD (a / BLOCK_SIZE) (0, []) =
        (formatWrites N).getD (a / BLOCK_SIZE) (0, []) := by
      rw [List.getD_eq_getElem?_getD, List.getElem?_take_of_lt hq,
        ← List.getD_eq_getElem?_getD]
    rw [if_pos h1, if_pos h1, formatImage, e]
  · rw [if_neg h1, if_neg h1]

/-- The device after the first `f` writes holds `formatImage N b` in every
block `b < f`. -/
theorem readBlock_applyWrites_take (N f b : Nat) (hf : f ≤ 66) (hb : b < f) (d : Nat → Nat)
    (data : Nat → Nat)
    (h : ∀ a, a < f * BLOCK_SIZE → data a = applyWrites ((formatWrites N).take f) d a) :
    readBlock data b = formatImage N b := by
  apply readBlock_eq _ _ _ (formatImage_length N b (by omega))
  intro j hj
  have ha : b * BLOCK_SIZE + j < f * BLOCK_SIZE := by
    simp only [BLOCK_SIZE] at hj ⊢; omega
  have hq : (b * BLOCK_SIZE + j) / BLOCK_SIZE = b := by
    simp only [BLOCK_SIZE] at hj ⊢; omega
  have hr : (b * BLOCK_SIZE + j) % BLOCK_SIZE = j := by
    simp only [BLOCK_SIZE] at hj ⊢; omega
  rw [h _ ha, applyWrites_take_format N f hf, if_pos ha, hq, hr]

/-! ## The two kinds of run with the device open -/

/-- A run in which the open and all 66 writes succeed. -/
theorem quick_format_cpfs_ok (env : Env) (data0 : Nat → Nat) (jb0 : List JournalEntry)
    (N : Nat) (ho : env.openOk = true)
    (hw : ∀ k, k < 66 → (env.outcome k).succeeds BLOCK_SIZE = true) :
    (quick_format_cpfs env data0 jb0 N).ret = 0 ∧
      (quick_format_cpfs env data0 jb0 N).disk =
        CloseHandle
          { data := applyWrites (formatWrites N) data0
            calls := 66
            log := DiskOp.CreateFileA :: writeOps (formatWrites N) } := by
  obtain ⟨h1, h2⟩ := quick_format_cpfs_eq env data0 jb0 N ho
  have hr := runWrites_ok env (formatWrites N) (opened data0) (by
    intro j hj
    rw [formatWrites_length] at hj
    simpa [opened] using hw j hj)
  rw [h1, h2, hr]
  simp [opened, formatWrites_length]

/-- A run in which the open succeeds and write number `f` (counted from 0) is
the first to fail. -/
theorem quick_format_cpfs_fail (env : Env) (data0 : Nat → Nat) (jb0 : List JournalEntry)
    (N f : Nat) (ho : env.openOk = true) (hf : f < 66)
    (hok : ∀ j, j < f → (env.outcome j).succeeds BLOCK_SIZE = true)
    (hbad : (env.outcome f).succeeds BLOCK_SIZE = false) :
    (quick_format_cpfs env data0 jb0 N).ret = -1 ∧
      (quick_format_cpfs env data0 jb0 N).disk.calls = f + 1 ∧
      (∀ a, (a < f * BLOCK_SIZE ∨ (f + 1) * BLOCK_SIZE ≤ a) →
        (quick_format_cpfs env data0 jb0 N).disk.data a =
          applyWrites ((formatWrites N).take f) data0 a) ∧
      ∃ last, (last = [] ∨ last = [DiskOp.WriteFile BLOCK_SIZE]) ∧
        (quick_format_cpfs env data0 jb0 N).disk.log =
          DiskOp.CreateFileA :: (writeOps ((formatWrites N).take f) ++
            DiskOp.SetFilePointerEx (f * BLOCK_SIZE) :: last ++ [DiskOp.CloseHandle]) := by
  obtain ⟨h1, h2⟩ := quick_format_cpfs_eq env data0 jb0 N ho
  have hlt : f < (formatWrites N).length := by rw [formatWrites_length]; exact hf
  have hlen : ((formatWrites N).take f).length = f := by
    rw [List.length_take]; omega
  have hsplit : formatWrites N =
      (formatWrites N).take f ++ (formatWrites N)[f] :: (formatWrites N).drop (f + 1) := by
    rw [← List.drop_eq_getElem_cons hlt, List.take_append_drop]
  have hx : ((formatWrites N)[f]).1 = f := by
    have := congrArg (fun l => l[f]?) (formatWrites_fst N)
    simp only [List.getElem?_map, List.getElem?_eq_getElem hlt, Option.map_some,
      List.getElem?_range hlt] at this
    simpa using this
  have hr := runWrites_fail env ((formatWrites N).take f) ((formatWrites N).drop (f + 1))
    ((formatWrites N)[f]) (opened data0)
    (by intro j hj; rw [hlen] at hj; simpa [opened] using hok j hj)
    (by rw [hlen]; simpa [opened] using hbad)
  rw [← hsplit] at hr
  rw [h1, h2, hr]
  refine ⟨by simp, ?_, ?_, ?_⟩
  · simp only [CloseHandle]
    rw [write_to_disk_calls, hlen]
    simp [opened]
  · intro a ha
    simp only [CloseHandle]
    rw [write_to_disk_frame]
    · simp [opened]
    · rw [hx, blockOffset_eq f (by omega)]
      rw [Nat.add_mul] at ha
      omega
  · obtain ⟨last, hl1, hl2⟩ := write_to_disk_log_cases env
      { data := applyWrites ((formatWrites N).take f) (opened data0).data
        calls := (opened data0).calls + ((formatWrites N).take f).length
        log := (opened data0).log ++ writeOps ((formatWrites N).take f) }
      ((formatWrites N)[f]).1 ((formatWrites N)[f]).2
    refine ⟨last, hl1, ?_⟩
    simp only [CloseHandle]
    rw [hl2, hx, blockOffset_eq f (by omega)]
    simp [opened]

/-- After a run in which everything succeeds, block `b < 66` holds the bytes of
write number `b`. -/
theorem readBlock_after_format (env : Env) (data0 : Nat → Nat) (jb0 : List JournalEntry)
    (N : Nat) (ho : env.openOk = true)
    (hw : ∀ k, k < 66 → (env.outcome k).succeeds BLOCK_SIZE = true) (b : Nat) (hb : b < 66) :
    readBlock (quick_format_cpfs env data0 jb0 N).disk.data b = formatImage N b := by
  apply readBlock_applyWrites_take N 66 b (Nat.le_refl _) hb data0
  intro a _
  rw [(quick_format_cpfs_ok env data0 jb0 N ho hw).2, List.take_of_length_le
    (Nat.le_of_eq (formatWrites_length N))]
  rfl

theorem getD_append_zeros (l : List Nat) (n j : Nat) (h : l.length ≤ j) :
    (l ++ List.replicate n 0).getD j 0 = 0 := by
  rw [List.getD_append_right _ _ _ _ h, List.getD_eq_getElem?_getD, List.getElem?_replicate]
  split <;> rfl

theorem readU32_append (l1 l2 : List Nat) (off : Nat) (h : off + 3 < l1.length) :
    readU32 (l1 ++ l2) off = readU32 l1 off := by
  unfold readU32
  rw [List.getD_append _ _ _ _ (by omega), List.getD_append _ _ _ _ (by omega),
    List.getD_append _ _ _ _ (by omega), List.getD_append _ _ _ _ h]

theorem readU32_superblock (sb : Superblock) :
    readU32 sb.bytes 0 = sb.cpfs_magic % 2 ^ 32 ∧ readU32 sb.bytes 4 = sb.block_count % 2 ^ 32 ∧
      readU32 sb.bytes 8 = sb.journal_start % 2 ^ 32 ∧
      readU32 sb.bytes 12 = sb.journal_length % 2 ^ 32 := by
  simp only [readU32, Superblock.bytes, u32le, List.cons_append, List.nil_append,
    List.getD_cons_zero, List.getD_cons_succ]
  refine ⟨?_, ?_, ?_, ?_⟩ <;> omega

theorem writeOps_eq_map_fst (ws : List (Nat × List Nat)) :
    writeOps ws = (ws.map Prod.fst).flatMap
      (fun k => [DiskOp.SetFilePointerEx (blockOffset k), DiskOp.WriteFile BLOCK_SIZE]) := by
  unfold writeOps
  rw [List.flatMap_map]

theorem writeOps_formatWrites (N : Nat) :
    writeOps (formatWrites N) = (List.range 66).flatMap
      (fun k => [DiskOp.SetFilePointerEx (k * BLOCK_SIZE), DiskOp.WriteFile BLOCK_SIZE]) := by
  rw [writeOps_eq_map_fst, formatWrites_fst, formatWrites_length]
  apply List.flatMap_congr
  intro k hk
  rw [blockOffset_eq k (by have := List.mem_range.1 hk; omega)]

theorem writeOps_take_formatWrites (N f : Nat) (hf : f ≤ 66) :
    writeOps ((formatWrites N).take f) = (List.range f).flatMap
      (fun k => [DiskOp.SetFilePointerEx (k * BLOCK_SIZE), DiskOp.WriteFile BLOCK_SIZE]) := by
  rw [writeOps_eq_map_fst, List.map_take, formatWrites_fst, formatWrites_length,
    List.take_range, Nat.min_eq_left hf]
  apply List.flatMap_congr
  intro k hk
  rw [blockOffset_eq k (by have := List.mem_range.1 hk; omega)]

/-- Bytes 0 .. 66 * 4096 - 1 of the device after a run in which everything
succeeds, whatever the device and `journal_buffer` held before. -/
theorem data_after_format (env : Env) (data0 : Nat → Nat) (jb0 : List JournalEntry)
    (N : Nat) (ho : env.openOk = true)
    (hw : ∀ k, k < 66 → (env.outcome k).succeeds BLOCK_SIZE = true) (a : Nat) :
    (quick_format_cpfs env data0 jb0 N).disk.data a =
      if a < 66 * BLOCK_SIZE then (formatImage N (a / BLOCK_SIZE)).getD (a % BLOCK_SIZE) 0
      else data0 a := by
  rw [(quick_format_cpfs_ok env data0 jb0 N ho hw).2, ← applyWrites_take_format N 66
    (Nat.le_refl _), List.take_of_length_le (Nat.le_of_eq (formatWrites_length N))]
  rfl

theorem length_flatMap_u32le (ws : List Nat) : (ws.flatMap u32le).length = 4 * ws.length := by
  induction ws with
  | nil => rfl
  | cons w ws ih =>
    rw [List.flatMap_cons, List.length_append, ih, List.length_cons]
    simp only [u32le, List.length_cons, List.length_nil]
    omega

theorem journalEntry_length_bytes (e : JournalEntry) :
    e.bytes.length = 8 + 4 * e.data.length := by
  unfold JournalEntry.bytes
  rw [List.length_append, List.length_append, length_flatMap_u32le]
  simp only [u32le, List.length_cons, List.length_nil]

/-! ## The claims -/

/-- C1: for every `total_blocks = N` below `2^32` and every device on which the
open and all 66 writes succeed, after `quick_format_cpfs` block 0 is the
16-byte superblock image followed by zeros: the words at offsets 0, 4, 8, 12
are `0x53465043`, `N`, `1`, `64`, and every byte from offset 16 to 4095 is
zero. -/
theorem superblock_block_after_format (env : Env) (data0 : Nat → Nat)
    (jb0 : List JournalEntry) (N : Nat) (hN : N < 2 ^ 32) (ho : env.openOk = true)
    (hw : ∀ k, k < 66 → (env.outcome k).succeeds BLOCK_SIZE = true) :
    readBlock (quick_format_cpfs env data0 jb0 N).disk.data 0 =
        Superblock.bytes
          { cpfs_magic := CPFS_MAGIC, block_count := N, journal_start := 1,
            journal_length := JOURNAL_SIZE } ++ List.replicate 4080 0 ∧
      (readBlock (quick_format_cpfs env data0 jb0 N).disk.data 0).length = 4096 ∧
      readU32 (readBlock (quick_format_cpfs env data0 jb0 N).disk.data 0) 0 = 0x53465043 ∧
      readU32 (readBlock (quick_format_cpfs env data0 jb0 N).disk.data 0) 4 = N ∧
      readU32 (readBlock (quick_format_cpfs env data0 jb0 N).disk.data 0) 8 = 1 ∧
      readU32 (readBlock (quick_format_cpfs env data0 jb0 N).disk.data 0) 12 = 64 ∧
      ∀ j, 16 ≤ j → j < 4096 →
        (readBlock (quick_format_cpfs env data0 jb0 N).disk.data 0).getD j 0 = 0 := by
  have hb := readBlock_after_format env data0 jb0 N ho hw 0 (by decide)
  rw [formatImage_zero] at hb
  rw [hb]
  obtain ⟨r0, r4, r8, r12⟩ := readU32_superblock
    { cpfs_magic := CPFS_MAGIC, block_count := N, journal_start := 1,
      journal_length := JOURNAL_SIZE }
  refine ⟨rfl, ?_, ?_, ?_, ?_, ?_, ?_⟩
  · rw [List.length_append, List.length_replicate, superblock_length_bytes]
  · rw [readU32_append _ _ _ (by rw [superblock_length_bytes]; decide), r0]; rfl
  · rw [readU32_append _ _ _ (by rw [superblock_length_bytes]; decide), r4]
    exact Nat.mod_eq_of_lt hN
  · rw [readU32_append _ _ _ (by rw [superblock_length_bytes]; decide), r8]; rfl
  · rw [readU32_append _ _ _ (by rw [superblock_length_bytes]; decide), r12]; rfl
  · intro j hj _
    exact getD_append_zeros _ _ _ (by rw [superblock_length_bytes]; exact hj)

/-- Witness of C1: a 1000-block format of a device full of `0xFF` bytes. -/
theorem superblock_block_after_format_witness :
    readU32 (readBlock (quick_format_cpfs goodEnv (fun _ => 255) [] 1000).disk.data 0) 4
      = 1000 :=
  (superblock_block_after_format goodEnv (fun _ => 255) [] 1000 (by decide) rfl
    (fun _ _ => rfl)).2.2.2.1

/-- C2: for every `total_blocks` and every device on which the open and all 66
writes succeed, after `quick_format_cpfs` block 65 is the root directory entry
image followed by zeros: the name field is `/` followed by 127 zero bytes,
`block_num = 65`, `size = 0`, `isDirectory = true`, and every byte beyond the
140 bytes of the entry is zero. -/
theorem root_block_after_format (env : Env) (data0 : Nat → Nat)
    (jb0 : List JournalEntry) (N : Nat) (ho : env.openOk = true)
    (hw : ∀ k, k < 66 → (env.outcome k).succeeds BLOCK_SIZE = true) :
    readBlock (quick_format_cpfs env data0 jb0 N).disk.data 65 =
        rootEntry.bytes ++ List.replicate 3956 0 ∧
      (readBlock (quick_format_cpfs env data0 jb0 N).disk.data 65).length = 4096 ∧
      (readBlock (quick_format_cpfs env data0 jb0 N).disk.data 65).take 128 =
        47 :: List.replicate 127 0 ∧
      readU32 (readBlock (quick_format_cpfs env data0 jb0 N).disk.data 65) 128 = 65 ∧
      readU32 (readBlock (quick_format_cpfs env data0 jb0 N).disk.data 65) 132 = 0 ∧
      (readBlock (quick_format_cpfs env data0 jb0 N).disk.data 65).getD 136 0 = 1 ∧
      (∀ j, 140 ≤ j → j < 4096 →
        (readBlock (quick_format_cpfs env data0 jb0 N).disk.data 65).getD j 0 = 0) ∧
      rootEntry.block_num = 1 + JOURNAL_SIZE ∧ rootEntry.size = 0 ∧
      rootEntry.isDirectory = true := by
  have hb := readBlock_after_format env data0 jb0 N ho hw 65 (by decide)
  rw [formatImage_root] at hb
  rw [hb]
  refine ⟨rfl, ?_, ?_, ?_, ?_, ?_, ?_, rfl, rfl, rfl⟩
  · rw [List.length_append, List.length_replicate, rootEntry_length_bytes]
  · rw [List.take_append_of_le_length (by rw [rootEntry_length_bytes]; decide),
      rootEntry_bytes]
    decide
  · rw [readU32_append _ _ _ (by rw [rootEntry_length_bytes]; decide), rootEntry_bytes]
    decide
  · rw [readU32_append _ _ _ (by rw [rootEntry_length_bytes]; decide), rootEntry_bytes]
    decide
  · rw [List.getD_append _ _ _ _ (by rw [rootEntry_length_bytes]; decide), rootEntry_bytes]
    decide
  · intro j hj _
    exact getD_append_zeros _ _ _ (by rw [rootEntry_length_bytes]; exact hj)

/-- Witness of C2: a 1000-block format of a device full of `0xFF` bytes. -/
theorem root_block_after_format_witness :
    readU32 (readBlock (quick_format_cpfs goodEnv (fun _ => 255) [] 1000).disk.data 65) 128
      = 65 :=
  (root_block_after_format goodEnv (fun _ => 255) [] 1000 rfl (fun _ _ => rfl)).2.2.2.1

/-- C3: for every `total_blocks` and every device on which the open and all 66
writes succeed, after `quick_format_cpfs` every block `i` with `1 ≤ i ≤ 64` is
4096 zero bytes, whatever the device and `journal_buffer` held before. -/
theorem journal_blocks_after_format (env : Env) (data0 : Nat → Nat)
    (jb0 : List JournalEntry) (N : Nat) (ho : env.openOk = true)
    (hw : ∀ k, k < 66 → (env.outcome k).succeeds BLOCK_SIZE = true)
    (i : Nat) (h1 : 1 ≤ i) (h2 : i ≤ 64) :
    readBlock (quick_format_cpfs env data0 jb0 N).disk.data i = List.replicate 4096 0 := by
  rw [readBlock_after_format env data0 jb0 N ho hw i (by omega), formatImage_journal N i h1 h2]

/-- Witness of C3: block 7 after a 1000-block format of a device full of
`0xFF` bytes. -/
theorem journal_blocks_after_format_witness :
    readBlock (quick_format_cpfs goodEnv (fun _ => 255) [] 1000).disk.data 7
      = List.replicate 4096 0 :=
  journal_blocks_after_format goodEnv (fun _ => 255) [] 1000 rfl (fun _ _ => rfl) 7
    (by decide) (by decide)

/-- C4: `quick_format_cpfs` returns 0 exactly when the open succeeds and each
of the 66 block writes succeeds (no seek failure, no write failure, no short
write); in every other case it returns -1. -/
theorem return_value (env : Env) (data0 : Nat → Nat) (jb0 : List JournalEntry) (N : Nat) :
    ((quick_format_cpfs env data0 jb0 N).ret = 0 ↔
        env.openOk = true ∧ ∀ k, k < 66 → (env.outcome k).succeeds BLOCK_SIZE = true) ∧
      (¬ (env.openOk = true ∧ ∀ k, k < 66 → (env.outcome k).succeeds BLOCK_SIZE = true) →
        (quick_format_cpfs env data0 jb0 N).ret = -1) := by
  cases ho : env.openOk with
  | false =>
    have hr : (quick_format_cpfs env data0 jb0 N).ret = -1 := by
      simp [quick_format_cpfs, open_disk, ho]
    rw [hr]
    simp
  | true =>
    have h1 := (quick_format_cpfs_eq env data0 jb0 N ho).1
    have key : (runWrites env (formatWrites N) (opened data0)).1 = true ↔
        ∀ k, k < 66 → (env.outcome k).succeeds BLOCK_SIZE = true := by
      constructor
      · intro h k hk
        have := runWrites_true env (formatWrites N) (opened data0) h k
          (by rw [formatWrites_length]; exact hk)
        simpa [opened] using this
      · intro h
        rw [runWrites_ok env (formatWrites N) (opened data0) (by
          intro j hj
          rw [formatWrites_length] at hj
          simpa [opened] using h j hj)]
    rw [h1]
    by_cases hr : (runWrites env (formatWrites N) (opened data0)).1 = true
    · have hy := key.1 hr
      rw [if_pos hr]
      exact ⟨⟨fun _ => ⟨rfl, hy⟩, fun _ => rfl⟩, fun hc => absurd ⟨rfl, hy⟩ hc⟩
    · have hn : ¬ ∀ k, k < 66 → (env.outcome k).succeeds BLOCK_SIZE = true :=
        fun h => hr (key.2 h)
      simp [hr, hn]

/-- Witness of C4: a run in which everything succeeds returns 0. -/
theorem return_value_witness :
    (quick_format_cpfs goodEnv (fun _ => 255) [] 1000).ret = 0 :=
  (return_value goodEnv (fun _ => 255) [] 1000).1.2 ⟨rfl, fun _ _ => rfl⟩

/-- C5: for every `k` with `1 ≤ k ≤ 66`, if the `k`-th write of the sequence
block 0, 1, ..., 65 is the first to fail, then `quick_format_cpfs` invokes
`write_to_disk` exactly `k` times, returns -1, and each of the blocks
`0 .. k-2` written before keeps the content written to it.  The platform
calls are the open, the seeks and writes of blocks `0 .. k-2`, the seek of
block `k-1` with at most one write after it, and the close: nothing is
attempted for the blocks after the failing one. -/
theorem first_failure_aborts (env : Env) (data0 : Nat → Nat) (jb0 : List JournalEntry)
    (N k : Nat) (hk1 : 1 ≤ k) (hk2 : k ≤ 66) (ho : env.openOk = true)
    (hok : ∀ j, j + 1 < k → (env.outcome j).succeeds BLOCK_SIZE = true)
    (hbad : (env.outcome (k - 1)).succeeds BLOCK_SIZE = false) :
    (quick_format_cpfs env data0 jb0 N).disk.calls = k ∧
      (quick_format_cpfs env data0 jb0 N).ret = -1 ∧
      (∀ b, b + 1 < k →
        readBlock (quick_format_cpfs env data0 jb0 N).disk.data b = formatImage N b) ∧
      ∃ last, (last = [] ∨ last = [DiskOp.WriteFile BLOCK_SIZE]) ∧
        (quick_format_cpfs env data0 jb0 N).disk.log =
          DiskOp.CreateFileA ::
            ((List.range (k - 1)).flatMap
                (fun i => [DiskOp.SetFilePointerEx (i * 4096), DiskOp.WriteFile 4096])
              ++ DiskOp.SetFilePointerEx ((k - 1) * 4096) :: last ++ [DiskOp.CloseHandle]) := by
  obtain ⟨h1, h2, h3, last, h4, h5⟩ :=
    quick_format_cpfs_fail env data0 jb0 N (k - 1) ho (by omega)
      (fun j hj => hok j (by omega)) hbad
  refine ⟨by rw [h2]; omega, h1, ?_, last, h4, ?_⟩
  · intro b hb
    exact readBlock_applyWrites_take N (k - 1) b (by omega) (by omega) data0 _
      (fun a ha => h3 a (Or.inl ha))
  · rw [h5, writeOps_take_formatWrites N (k - 1) (by omega)]
    rfl

/-- Witness of C5: the third write is short; three writes are attempted and
blocks 0 and 1 keep what was written. -/
theorem first_failure_aborts_witness :
    (quick_format_cpfs shortThirdEnv (fun _ => 255) [] 1000).disk.calls = 3 ∧
      (quick_format_cpfs shortThirdEnv (fun _ => 255) [] 1000).ret = -1 ∧
      ∀ b, b + 1 < 3 →
        readBlock (quick_format_cpfs shortThirdEnv (fun _ => 255) [] 1000).disk.data b =
          formatImage 1000 b :=
  have h := first_failure_aborts shortThirdEnv (fun _ => 255) [] 1000 3 (by decide)
    (by decide) rfl
    (by
      intro j hj
      have : j = 0 ∨ j = 1 := by omega
      rcases this with rfl | rfl <;> rfl)
    rfl
  ⟨h.1, h.2.1, h.2.2.1⟩

/-- C6: if the device cannot be opened, `quick_format_cpfs` returns -1, never
invokes `write_to_disk` (the only platform call is the failed open), and the
device content and `journal_buffer` are unchanged. -/
theorem open_failure (env : Env) (data0 : Nat → Nat) (jb0 : List JournalEntry) (N : Nat)
    (ho : env.openOk = false) :
    (quick_format_cpfs env data0 jb0 N).ret = -1 ∧
      (quick_format_cpfs env data0 jb0 N).disk.calls = 0 ∧
      (quick_format_cpfs env data0 jb0 N).disk.log = [DiskOp.CreateFileA] ∧
      (quick_format_cpfs env data0 jb0 N).disk.data = data0 ∧
      (quick_format_cpfs env data0 jb0 N).journal_buffer = jb0 := by
  simp [quick_format_cpfs, open_disk, ho]

/-- Witness of C6: the open fails on a device full of `0xFF` bytes. -/
theorem open_failure_witness :
    (quick_format_cpfs noOpenEnv (fun _ => 255) [] 1000).ret = -1 ∧
      (quick_format_cpfs noOpenEnv (fun _ => 255) [] 1000).disk.calls = 0 :=
  ⟨(open_failure noOpenEnv (fun _ => 255) [] 1000 rfl).1,
    (open_failure noOpenEnv (fun _ => 255) [] 1000 rfl).2.1⟩

/-- C7: formatting is idempotent on blocks 0 .. 65.  For every initial device
content and `journal_buffer`, if a run with `N` in which everything succeeds is
followed by a second such run on the resulting device and `journal_buffer`,
every byte of blocks 0 .. 65 is the same after the second run as after the
first; and the content of these blocks after such a run is the same for any
two initial device contents and `journal_buffer` states. -/
theorem format_idempotent (env1 env2 : Env) (data0 data0' : Nat → Nat)
    (jb0 jb0' : List JournalEntry) (N : Nat)
    (ho1 : env1.openOk = true)
    (hw1 : ∀ k, k < 66 → (env1.outcome k).succeeds BLOCK_SIZE = true)
    (ho2 : env2.openOk = true)
    (hw2 : ∀ k, k < 66 → (env2.outcome k).succeeds BLOCK_SIZE = true) :
    (∀ a, a < 66 * BLOCK_SIZE →
        (quick_format_cpfs env2 (quick_format_cpfs env1 data0 jb0 N).disk.data
            (quick_format_cpfs env1 data0 jb0 N).journal_buffer N).disk.data a =
          (quick_format_cpfs env1 data0 jb0 N).disk.data a) ∧
      (∀ b, b < 66 →
        readBlock (quick_format_cpfs env2 (quick_format_cpfs env1 data0 jb0 N).disk.data
            (quick_format_cpfs env1 data0 jb0 N).journal_buffer N).disk.data b =
          readBlock (quick_format_cpfs env1 data0 jb0 N).disk.data b) ∧
      (∀ a, a < 66 * BLOCK_SIZE →
        (quick_format_cpfs env1 data0 jb0 N).disk.data a =
          (quick_format_cpfs env2 data0' jb0' N).disk.data a) := by
  refine ⟨?_, ?_, ?_⟩
  · intro a ha
    rw [data_after_format env2 _ _ N ho2 hw2, data_after_format env1 _ _ N ho1 hw1,
      if_pos ha, if_pos ha]
  · intro b hb
    rw [readBlock_after_format env2 _ _ N ho2 hw2 b hb,
      readBlock_after_format env1 _ _ N ho1 hw1 b hb]
  · intro a ha
    rw [data_after_format env2 _ _ N ho2 hw2, data_after_format env1 _ _ N ho1 hw1,
      if_pos ha, if_pos ha]

/-- Witness of C7: two successive 1000-block formats of a device full of
`0xFF` bytes, compared on block 65. -/
theorem format_idempotent_witness :
    readBlock (quick_format_cpfs goodEnv
        (quick_format_cpfs goodEnv (fun _ => 255) [] 1000).disk.data
        (quick_format_cpfs goodEnv (fun _ => 255) [] 1000).journal_buffer 1000).disk.data 65 =
      readBlock (quick_format_cpfs goodEnv (fun _ => 255) [] 1000).disk.data 65 :=
  (format_idempotent goodEnv goodEnv (fun _ => 255) (fun _ => 0) [] [] 1000 rfl
    (fun _ _ => rfl) rfl (fun _ _ => rfl)).2.1 65 (by decide)

/-- C8, as the claim states it, fails: the serialised zero-valued entry
that the format writes is 4104 bytes long, not `BLOCK_SIZE`, and the
`BLOCK_SIZE` bytes of a journal write are not the whole entry. -/
theorem journalEntry_size_ne_block :
    JournalEntry.zero.bytes.length = 4104 ∧
      ¬ (JournalEntry.zero.bytes.length = BLOCK_SIZE) ∧
      journalMemory.take BLOCK_SIZE ≠ JournalEntry.zero.bytes := by
  have hl : JournalEntry.zero.bytes.length = 4104 := by
    rw [journalEntry_bytes_zero, List.length_replicate]
  refine ⟨hl, ?_, ?_⟩
  · rw [hl]; decide
  · intro h
    have := congrArg List.length h
    rw [journalMemory_take, List.length_replicate, hl] at this
    exact absurd this (by decide)

/-- C8, amended: a serialised `JournalEntry` (two header words and a payload
of `BLOCK_SIZE / 4` words) is `BLOCK_SIZE + 8 = 4104` bytes long; a journal
write of `BLOCK_SIZE` bytes from `journal_buffer.data()` carries the first
`BLOCK_SIZE` bytes of the first entry and leaves out its last 8 bytes: after
a successful `write_to_disk` of a `journal_buffer` starting with `e` to block
`b`, block `b` holds the first `BLOCK_SIZE` bytes of `e`, and after a format
in which everything succeeds each of the blocks 1 .. 64 holds the first
`BLOCK_SIZE` bytes of the zero-valued entry. -/
theorem journalEntry_size (e : JournalEntry) (rest : List JournalEntry)
    (hd : e.data.length = BLOCK_SIZE / 4) :
    e.bytes.length = BLOCK_SIZE + 8 ∧
      e.bytes.length = 4104 ∧
      (vectorBytes (e :: rest)).take BLOCK_SIZE = e.bytes.take BLOCK_SIZE ∧
      ((vectorBytes (e :: rest)).take BLOCK_SIZE).length = BLOCK_SIZE ∧
      (e.bytes.drop BLOCK_SIZE).length = 8 ∧
      (∀ (env : Env) (s : Disk) (b : Nat), b < 2 ^ 32 →
        (env.outcome s.calls).succeeds BLOCK_SIZE = true →
        (write_to_disk env s b (vectorBytes (e :: rest)) BLOCK_SIZE).1 = true ∧
          readBlock (write_to_disk env s b (vectorBytes (e :: rest)) BLOCK_SIZE).2.data b =
            e.bytes.take BLOCK_SIZE) ∧
      (∀ (env : Env) (data0 : Nat → Nat) (jb0 : List JournalEntry) (N : Nat),
        env.openOk = true →
        (∀ k, k < 66 → (env.outcome k).succeeds BLOCK_SIZE = true) →
        ∀ i, 1 ≤ i → i ≤ 64 →
          readBlock (quick_format_cpfs env data0 jb0 N).disk.data i =
            JournalEntry.zero.bytes.take BLOCK_SIZE) := by
  have hl : e.bytes.length = 4104 := by
    rw [journalEntry_length_bytes, hd]; rfl
  have ht : (vectorBytes (e :: rest)).take BLOCK_SIZE = e.bytes.take BLOCK_SIZE := by
    unfold vectorBytes
    rw [List.flatMap_cons, List.take_append_of_le_length (by rw [hl]; decide)]
  have htl : (e.bytes.take BLOCK_SIZE).length = BLOCK_SIZE := by
    rw [List.length_take, hl]; rfl
  refine ⟨by rw [hl]; rfl, hl, ht, ?_, ?_, ?_, ?_⟩
  · rw [ht, htl]
  · rw [List.length_drop, hl]; rfl
  · intro env s b hb hs
    rw [write_to_disk_ok env s b _ hs, ht]
    refine ⟨rfl, ?_⟩
    apply readBlock_eq _ _ _ htl
    intro j hj
    show store s.data (blockOffset b) (e.bytes.take BLOCK_SIZE) (b * BLOCK_SIZE + j) = _
    unfold store
    rw [blockOffset_eq b hb, htl, if_pos ⟨Nat.le_add_right _ _, by omega⟩,
      Nat.add_sub_cancel_left]
  · intro env data0 jb0 N ho hw i h1 h2
    rw [readBlock_after_format env data0 jb0 N ho hw i (by omega),
      formatImage_journal N i h1 h2, journalEntry_bytes_zero, List.take_replicate]
    rfl

/-- Witness of C8 amended: the zero-valued entry followed by 63 more, written
to block 1 of a freshly opened device full of `0xFF` bytes. -/
theorem journalEntry_size_witness :
    JournalEntry.zero.bytes.length = BLOCK_SIZE + 8 ∧
      readBlock (write_to_disk goodEnv (opened (fun _ => 255)) 1
          (vectorBytes (JournalEntry.zero :: List.replicate 63 JournalEntry.zero))
          BLOCK_SIZE).2.data 1 =
        JournalEntry.zero.bytes.take BLOCK_SIZE :=
  have h := journalEntry_size JournalEntry.zero (List.replicate 63 JournalEntry.zero) (by
    simp only [JournalEntry.zero, List.length_replicate])
  ⟨h.1, (h.2.2.2.2.2.1 goodEnv (opened (fun _ => 255)) 1 (by decide) rfl).2⟩

/-- C9: on a device where the open and all writes succeed, the platform calls
of `quick_format_cpfs` are the open, then for block 0, 1, ..., 65 in this
order a seek to byte offset `block * 4096` followed by a write of exactly
`BLOCK_SIZE = 4096` bytes, then the close: 66 block writes whatever
`total_blocks` is, and no byte at or beyond offset `66 * 4096` (no block of
index greater than 65) is modified. -/
theorem write_sequence (env : Env) (data0 : Nat → Nat) (jb0 : List JournalEntry) (N : Nat)
    (ho : env.openOk = true)
    (hw : ∀ k, k < 66 → (env.outcome k).succeeds BLOCK_SIZE = true) :
    (quick_format_cpfs env data0 jb0 N).disk.log =
        DiskOp.CreateFileA ::
          ((List.range 66).flatMap
              (fun k => [DiskOp.SetFilePointerEx (k * 4096), DiskOp.WriteFile 4096])
            ++ [DiskOp.CloseHandle]) ∧
      (quick_format_cpfs env data0 jb0 N).disk.calls = 66 ∧
      (∀ a, 66 * 4096 ≤ a → (quick_format_cpfs env data0 jb0 N).disk.data a = data0 a) ∧
      ∀ b, 65 < b → readBlock (quick_format_cpfs env data0 jb0 N).disk.data b =
        readBlock data0 b := by
  have hfr : ∀ a, 66 * 4096 ≤ a →
      (quick_format_cpfs env data0 jb0 N).disk.data a = data0 a := by
    intro a ha
    rw [data_after_format env data0 jb0 N ho hw, if_neg (by simp only [BLOCK_SIZE]; omega)]
  refine ⟨?_, ?_, hfr, ?_⟩
  · rw [(quick_format_cpfs_ok env data0 jb0 N ho hw).2]
    simp only [CloseHandle, writeOps_formatWrites, List.cons_append]
    rfl
  · rw [(quick_format_cpfs_ok env data0 jb0 N ho hw).2]
    rfl
  · intro b hb
    unfold readBlock
    apply List.map_congr_left
    intro j _
    apply hfr
    simp only [BLOCK_SIZE]
    omega

/-- Witness of C9: the number of platform calls of a 1000-block format in
which everything succeeds. -/
theorem write_sequence_witness :
    (quick_format_cpfs goodEnv (fun _ => 255) [] 1000).disk.calls = 66 :=
  (write_sequence goodEnv (fun _ => 255) [] 1000 rfl (fun _ _ => rfl)).2.1

/-- C10: on every run of `quick_format_cpfs` in which the open succeeds,
whether all writes succeed or one fails, the record of platform calls is the
open, then seeks and writes, then one `CloseHandle` as the last call, so the
handle is closed exactly once and no write follows the close; when the open
fails, `CloseHandle` is never called. -/
theorem close_once (env : Env) (data0 : Nat → Nat) (jb0 : List JournalEntry) (N : Nat) :
    (env.openOk = true →
        (∃ ops, (quick_format_cpfs env data0 jb0 N).disk.log =
            DiskOp.CreateFileA :: (ops ++ [DiskOp.CloseHandle]) ∧
          DiskOp.CloseHandle ∉ ops ∧ DiskOp.CreateFileA ∉ ops) ∧
        (quick_format_cpfs env data0 jb0 N).disk.log.count DiskOp.CloseHandle = 1 ∧
        (quick_format_cpfs env data0 jb0 N).disk.log.getLast? = some DiskOp.CloseHandle) ∧
      (env.openOk = false →
        DiskOp.CloseHandle ∉ (quick_format_cpfs env data0 jb0 N).disk.log) := by
  constructor
  · intro ho
    obtain ⟨ops, h1, h2, h3⟩ := runWrites_log env (formatWrites N) (opened data0)
    have hlog : (quick_format_cpfs env data0 jb0 N).disk.log =
        DiskOp.CreateFileA :: (ops ++ [DiskOp.CloseHandle]) := by
      rw [(quick_format_cpfs_eq env data0 jb0 N ho).2]
      simp only [CloseHandle, h1]
      rfl
    refine ⟨⟨ops, hlog, h2, h3⟩, ?_, ?_⟩
    · rw [hlog, List.count_cons, List.count_append, List.count_eq_zero_of_not_mem h2]
      simp
    · rw [hlog, ← List.cons_append, List.getLast?_concat]
  · intro ho
    simp [quick_format_cpfs, open_disk, ho]

/-- Witness of C10: the record of a run whose third write is short ends with
its only `CloseHandle`. -/
theorem close_once_witness :
    (quick_format_cpfs shortThirdEnv (fun _ => 255) [] 1000).disk.log.count
        DiskOp.CloseHandle = 1 ∧
      (quick_format_cpfs shortThirdEnv (fun _ => 255) [] 1000).disk.log.getLast? =
        some DiskOp.CloseHandle :=
  ((close_once shortThirdEnv (fun _ => 255) [] 1000).1 rfl).2

end CPFS
